import Mathlib

/-!
Verification of the schema-driven configuration diff engine and the
request-governance utilities of the Stalwart web-admin repository.

The embedding follows `src/pages/config/mod.rs` (the `build_update` diff
builder and the `SettingsValues` read-side trait), `src/utils/security.rs`
(sliding-window rate limiter and one-time CSRF token store) and
`src/utils/audit.rs` (bounded audit trail).  The form/schema data model
(`core/form.rs`, `core/schema.rs`) is not among the provided sources; those
few leaf definitions are modelled from the spec and marked as such.

Machine time (`std::time::Instant`, `DateTime<Utc>`) is embedded as a `Nat`
instant passed explicitly to each stateful operation; `Duration` constants
become the corresponding number of seconds.  Rust's `HashMap` is embedded as
an association list with unique keys (insertion order for iteration where the
code iterates).
-/

namespace StalwartAdmin

/-! ## Form data model (leaf definitions, from `core/form.rs` / `core/schema.rs`) -/

/-- Modelled from the spec: `IfThen` (one `if`/`then` pair of an expression
form value) lives in `core/form.rs`, which is not among the provided sources.
The spec describes an ordered sequence of `(if, then)` string pairs. -/
structure IfThen where
  if_ : String
  then_ : String
deriving DecidableEq, Repr

/-- Modelled from the spec: the `Expression` payload of a `FormValue` — an
ordered sequence of if/then pairs plus a final `else` string. -/
structure ExpressionValue where
  if_thens : List IfThen
  else_ : String
deriving DecidableEq, Repr

/-- Modelled from the spec: `FormValue` is a tagged variant
`Value(string) | Array(strings) | Expression{if_thens, else}`. -/
inductive FormValue where
  | value (v : String)
  | array (vs : List String)
  | expression (expr : ExpressionValue)
deriving DecidableEq, Repr

/-- Modelled from the spec: emptiness of a form value, as used by the guards
of `build_update` ("Empty values of any variant are dropped"): an empty
string, an empty array, or an expression with no if/then pairs and an empty
`else` branch. -/
def FormValue.is_empty : FormValue → Bool
  | .value v => v.isEmpty
  | .array vs => vs.isEmpty
  | .expression e => e.if_thens.isEmpty && e.else_.isEmpty

/-- Field types, from `core/schema.rs` (modelled from the spec: Text, Boolean,
Select, Array, Duration, Rate, Size, Expression; `Select` carries a source and
a single/many discriminator, of which `format` only treats the static single
case specially). -/
inductive SelectType where
  | single
  | many
deriving DecidableEq, Repr

/-- Modelled from the spec: a select field's option source; `format` only
inspects the static table of `(raw, label)` pairs. -/
inductive FieldSource where
  | static_ (items : List (String × String))
  | dynamic
deriving DecidableEq, Repr

/-- Modelled from the spec: the type of a schema field. -/
inductive FieldType where
  | text
  | boolean
  | select (source : FieldSource) (styp : SelectType)
  | array
  | duration
  | rate
  | size
  | expression
deriving DecidableEq, Repr

/-- Modelled from the spec: a schema `Field` — `id`, `type`, and a
`multivalue` flag. -/
structure Field where
  id : String
  typ : FieldType
  multivalue : Bool
deriving DecidableEq, Repr

/-- Modelled from the spec: `field.is_multivalue()` reads the field's
multivalue flag. -/
def Field.is_multivalue (f : Field) : Bool := f.multivalue

/-- Schema type: `Record{prefix}` | `Entry{prefix}` | `List`
(modelled from the spec; `Record` carries further members elided by
`build_update`'s `..` pattern). -/
inductive SchemaType where
  | record (pfx : String)
  | entry (pfx : String)
  | list
deriving DecidableEq, Repr

/-- Modelled from the spec: a schema is its type plus the declared fields;
the insertion order of the field map is the iteration order used by the
builder, so the map is embedded as an ordered list. -/
structure Schema where
  typ : SchemaType
  fields : List Field
deriving DecidableEq, Repr

/-- Modelled from the spec: `FormData` — a schema, the `is_update` flag, and
the key → `FormValue` map iterated in stored order. -/
structure FormData where
  schema : Schema
  is_update : Bool
  values : List (String × FormValue)
deriving DecidableEq, Repr

/-- Modelled from the spec: `FormData::value_as_str` — the `_id` / `_value`
discriminators are plain string values, so the lookup returns the string of a
`Value` variant and nothing for any other (or absent) entry. -/
def FormData.value_as_str (self : FormData) (id : String) : Option String :=
  match List.lookup id self.values with
  | some (FormValue.value v) => some v
  | _ => none

/-- Modelled from the spec: `FormData::value_is_empty` — true when the field
has no stored value or its stored value is empty. -/
def FormData.value_is_empty (self : FormData) (id : String) : Bool :=
  match List.lookup id self.values with
  | some v => v.is_empty
  | none => true

/-! ## UpdateSettings and the diff builder (`src/pages/config/mod.rs`) -/

/-- `UpdateSettings` from `pages/config/mod.rs`:
`Delete{keys} | Clear{prefix, filter} | Insert{prefix, values, assert_empty}`. -/
inductive UpdateSettings where
  | delete (keys : List String)
  | clear (pfx : String) (filter : Option String)
  | insert (pfx : Option String) (values : List (String × String)) (assert_empty : Bool)
deriving DecidableEq, Repr

/-- Whether an update is the constructive `Insert` variant. -/
def UpdateSettings.isInsert : UpdateSettings → Bool
  | .insert _ _ _ => true
  | _ => false

/-- Rust's `format!("{n:0>w$}")`: the decimal rendering of `n`, left-padded
with `'0'` to at least `w` characters. -/
def zeroPad (n w : Nat) : String :=
  let s := toString n
  String.mk (List.replicate (w - s.length) '0') ++ s

/-- One arm of the common translation pass of `build_update`
(`pages/config/mod.rs:139-180`): the flattened key/value pairs contributed by
a single form value under `key`.  Empty values contribute nothing; a
singleton array stays unsuffixed; a longer array is index-suffixed with pad
width `len (toString (n-1))`; an expression with pairs is suffixed `.i.if` /
`.i.then` / `.n.else` with pad width `len (toString n)`. -/
def flattenFormValue (key : String) : FormValue → List (String × String)
  | .value v => if !v.isEmpty then [(key, v)] else []
  | .array vs =>
    if !vs.isEmpty then
      let total_values := vs.length
      if total_values > 1 then
        let pad_len := (toString (total_values - 1)).length
        vs.enum.map fun p => (key ++ "." ++ zeroPad p.1 pad_len, p.2)
      else
        [(key, vs.headD "")]
    else []
  | .expression expr =>
    if !(FormValue.expression expr).is_empty then
      if !expr.if_thens.isEmpty then
        let total_values := expr.if_thens.length
        let pad_len := (toString total_values).length
        (expr.if_thens.enum.map fun p =>
          [(key ++ "." ++ zeroPad p.1 pad_len ++ ".if", p.2.if_),
           (key ++ "." ++ zeroPad p.1 pad_len ++ ".then", p.2.then_)]).flatten
        ++ [(key ++ "." ++ zeroPad total_values pad_len ++ ".else", expr.else_)]
      else
        [(key, expr.else_)]
    else []

/-- Rust's `str::starts_with`, phrased on the underlying character list so
that it evaluates inside the kernel (Lean's own `String.startsWith` is
defined by well-founded recursion on byte positions and does not reduce). -/
def strStartsWith (s p : String) : Bool := p.data.isPrefixOf s.data

/-- The common pass of `build_update` over the stored form values: internal
(`_`-prefixed) keys are skipped, every other value is flattened in stored
order. -/
def buildKeyValues : List (String × FormValue) → List (String × String)
  | [] => []
  | (key, v) :: rest =>
    (if strStartsWith key "_" then [] else flattenFormValue key v) ++ buildKeyValues rest

/-- The destructive prelude of the `List` schema branch of `build_update`
(`pages/config/mod.rs:111-129`): one pass over the declared fields,
accumulating `Clear`s for multivalue fields and delete keys for multivalue or
empty fields. -/
def listDestructivePass (self : FormData) :
    List Field → List UpdateSettings × List String
  | [] => ([], [])
  | field :: rest =>
    let acc := listDestructivePass self rest
    if field.is_multivalue then
      (UpdateSettings.clear (field.id ++ ".") none :: acc.1, field.id :: acc.2)
    else if self.value_is_empty field.id then
      (acc.1, field.id :: acc.2)
    else
      acc

/-- `FormData::build_update` (`pages/config/mod.rs:82-192`).  The two `.unwrap()`
calls on the `_id` discriminator are embedded as `Option` bind: `none` models
the Rust panic on a missing `_id`; `_value` uses `unwrap_or_default`, i.e.
`Option.getD ""`. -/
def FormData.build_update (self : FormData) : Option (List UpdateSettings) :=
  match self.schema.typ with
  | .record pfx =>
    (self.value_as_str "_id").map fun id =>
      let updates :=
        if self.is_update then
          [UpdateSettings.clear (pfx ++ "." ++ id ++ ".") none]
        else []
      let assert_empty := !self.is_update
      let insertPfx := some (pfx ++ "." ++ id)
      let key_values := buildKeyValues self.values
      updates ++
        (if !key_values.isEmpty then
          [UpdateSettings.insert insertPfx key_values assert_empty]
        else [])
  | .entry pfx =>
    (self.value_as_str "_id").map fun id =>
      [UpdateSettings.insert none
        [(pfx ++ "." ++ id, (self.value_as_str "_value").getD "")]
        (!self.is_update)]
  | .list =>
    some (
      let destructive :=
        if self.is_update then
          let pass := listDestructivePass self self.schema.fields
          pass.1 ++
            (if !pass.2.isEmpty then [UpdateSettings.delete pass.2] else [])
        else []
      let key_values := buildKeyValues self.values
      destructive ++
        (if !key_values.isEmpty then
          [UpdateSettings.insert none key_values false]
        else []))

/-! ## Read side: `Settings` and the `SettingsValues` trait
(`src/pages/config/mod.rs:195-272`) -/

/-- `Settings`: the flattened key → value map (`AHashMap<String, String>`),
embedded as an association list with unique keys. -/
abbrev Settings := List (String × String)

/-- `SettingsValues::array_values`: every `(k, v)` whose key equals `key` or
starts with `"<key>."`, sorted lexicographically by key. -/
def Settings.array_values (self : Settings) (key : String) : List (String × String) :=
  let pfx := key ++ "."
  (self.filter fun kv => strStartsWith kv.1 pfx || kv.1 == key).mergeSort
    fun l r => l.1 ≤ r.1

/-- Rust's `str::parse::<u64>()`: an optional leading `'+'`, then one or more
ASCII digits, rejected on overflow past `2^64 - 1`; phrased on the character
list so that it evaluates inside the kernel. -/
def parseU64 (s : String) : Option Nat :=
  let chars := match s.data with
    | '+' :: rest => rest
    | cs => cs
  if chars.length > 0 && chars.all Char.isDigit then
    let n := chars.foldl (fun acc c => acc * 10 + (c.toNat - 48)) 0
    if n < 2 ^ 64 then some n else none
  else none

/-- `SettingsValues::format` (`pages/config/mod.rs:221-271`).  The
`Duration::from_str(..).ok().and_then(format)` and `Rate` pipelines live in
`components/form/input` (not among the provided sources) and the byte-size
renderer is the external `humansize` crate; modelled from the spec, which
fixes only that they are domain-specific parsers/renderers, they are passed
in as the parameters `fmtDuration`, `fmtRate` (parse-then-render pipelines
returning `none` on parse failure) and `fmtSize` (total renderer of a parsed
`u64`). -/
def Settings.format (fmtDuration fmtRate : String → Option String)
    (fmtSize : Nat → String) (self : Settings) (field : Field) : String :=
  match field.typ with
  | .select (.static_ items) .single =>
    let value := (List.lookup field.id self).getD ""
    ((items.find? fun kv => kv.1 == value).map fun kv => kv.2).getD value
  | .array =>
    ((self.array_values field.id).head?.map fun kv => kv.2).getD ""
  | .boolean =>
    if (List.lookup field.id self).any (· == "true") then "Yes" else "No"
  | .duration =>
    ((List.lookup field.id self).bind fmtDuration).getD ""
  | .rate =>
    ((List.lookup field.id self).bind fmtRate).getD ""
  | .size =>
    (((List.lookup field.id self).bind parseU64).map fmtSize).getD ""
  | _ =>
    (List.lookup field.id self).getD ""

/-! ## Request governance (`src/utils/security.rs`) -/

/-- `RATE_LIMIT_WINDOW`: 60 seconds. -/
def RATE_LIMIT_WINDOW : Nat := 60

/-- `MAX_REQUESTS_PER_WINDOW`: 60 events per identifier. -/
def MAX_REQUESTS_PER_WINDOW : Nat := 60

/-- `CSRF_TOKEN_EXPIRY`: 3600 seconds. -/
def CSRF_TOKEN_EXPIRY : Nat := 3600

/-- The `RATE_LIMITS` map: identifier → recorded event instants, in recording
order. -/
abbrev RateLimits := List (String × List Nat)

/-- In-place update of one identifier's recorded instants (the effect of
mutating through `HashMap::get_mut`). -/
def rlSet : RateLimits → String → List Nat → RateLimits
  | [], id, v => [(id, v)]
  | (k, w) :: rest, id, v =>
    if k == id then (k, v) :: rest else (k, w) :: rlSet rest id v

/-- `check_rate_limit` (`utils/security.rs:67-85`) at instant `now`: prune the
identifier's record of instants outside the 60-second window, reject without
recording when 60 or more remain, otherwise record `now` and accept.  Returns
the Rust `Result<(), String>` as `Except String Unit` together with the
updated map. -/
def check_rate_limit (limits : RateLimits) (identifier : String) (now : Nat) :
    Except String Unit × RateLimits :=
  match List.lookup identifier limits with
  | some requests =>
    let requests := requests.filter fun time => now - time < RATE_LIMIT_WINDOW
    if requests.length ≥ MAX_REQUESTS_PER_WINDOW then
      (Except.error "Rate limit exceeded", rlSet limits identifier requests)
    else
      (Except.ok (), rlSet limits identifier (requests ++ [now]))
  | none => (Except.ok (), limits ++ [(identifier, [now])])

/-- Runs a sequence of `(identifier, instant)` rate-limit checks, collecting
the results in order. -/
def runChecks (limits : RateLimits) : List (String × Nat) →
    List (Except String Unit) × RateLimits
  | [] => ([], limits)
  | (id, now) :: rest =>
    let step := check_rate_limit limits id now
    let tail := runChecks step.2 rest
    (step.1 :: tail.1, tail.2)

/-- The `CSRF_TOKENS` map: token → issue instant. -/
abbrev CsrfTokens := List (String × Nat)

/-- `HashMap::remove` of a token binding (keys are unique in the map). -/
def removeToken (tokens : CsrfTokens) (token : String) : CsrfTokens :=
  tokens.filter fun kv => kv.1 != token

/-- `validate_csrf_token` (`utils/security.rs:49-58`) at instant `now`: a
token found with age strictly inside the expiry is removed and accepted; a
found-but-expired token is rejected and left in place; an unknown token is
rejected. -/
def validate_csrf_token (tokens : CsrfTokens) (token : String) (now : Nat) :
    Bool × CsrfTokens :=
  match List.lookup token tokens with
  | some created_at =>
    if now - created_at < CSRF_TOKEN_EXPIRY then (true, removeToken tokens token)
    else (false, tokens)
  | none => (false, tokens)

/-- `cleanup_expired_csrf_tokens` (`utils/security.rs:61-64`): the periodic
sweep retains only unexpired tokens. -/
def cleanup_expired_csrf_tokens (tokens : CsrfTokens) (now : Nat) : CsrfTokens :=
  tokens.filter fun kv => now - kv.2 < CSRF_TOKEN_EXPIRY

/-! ## Audit trail (`src/utils/audit.rs`) -/

/-- `MAX_AUDIT_LOGS`: 1000 entries. -/
def MAX_AUDIT_LOGS : Nat := 1000

/-- `AuditAction` from `utils/audit.rs`. -/
inductive AuditAction where
  | configUpdate
  | fileUpload
  | login
  | logout
  | resetConfig
  | previewToggle
  | autoSaveToggle
deriving DecidableEq, Repr

/-- `AuditLog`: one audit entry. -/
structure AuditLog where
  timestamp : Nat
  action : AuditAction
  user : String
  details : String
  ip_address : Option String
  success : Bool
deriving DecidableEq, Repr

/-- The buffer mutation at the heart of `log_audit`
(`utils/audit.rs:51-55`): when the deque already holds `MAX_AUDIT_LOGS`
entries the front (oldest) one is popped, then the new entry is pushed at the
back.  The deque is embedded as a list whose head is the front. -/
def auditStep (logs : List AuditLog) (log : AuditLog) : List AuditLog :=
  (if logs.length ≥ MAX_AUDIT_LOGS then logs.tail else logs) ++ [log]

/-- `log_audit` (`utils/audit.rs:35-56`) at instant `now`: builds the entry
and appends it through `auditStep`. -/
def log_audit (logs : List AuditLog) (now : Nat) (action : AuditAction)
    (user details : String) (ip_address : Option String) (success : Bool) :
    List AuditLog :=
  auditStep logs ⟨now, action, user, details, ip_address, success⟩

/-- `get_audit_logs` (`utils/audit.rs:59-61`): an insertion-ordered copy of
the buffer. -/
def get_audit_logs (logs : List AuditLog) : List AuditLog := logs

/-- Appends a whole sequence of entries to an initially empty buffer. -/
def auditAll (entries : List AuditLog) : List AuditLog :=
  entries.foldl auditStep []

/-! ## Helper lemmas -/

/-- The `Entry{prefix}` branch of `build_update`, for any `FormData` whose
`_id` discriminator is present. -/
lemma entry_branch_eq (fd : FormData) (pfx id : String)
    (htyp : fd.schema.typ = SchemaType.entry pfx)
    (hid : fd.value_as_str "_id" = some id) :
    fd.build_update =
      some [UpdateSettings.insert none
        [(pfx ++ "." ++ id, (fd.value_as_str "_value").getD "")] (!fd.is_update)] := by
  unfold FormData.build_update
  rw [htyp, hid]
  rfl

/-! ## Claims -/

/-- C1: `build_update` flattens a non-empty `Array` form value under key `k`
into one pair per element at `"k.<idx>"` with indices zero-padded to the
digit-width of `length - 1` when the array has more than one element, and
into the single bare pair `("k", element)` when it has exactly one; in
particular `Array(["a","b","c"])` under `"k"` yields exactly
`{"k.0": "a", "k.1": "b", "k.2": "c"}` and `Array(["x"])` yields exactly
`{"k": "x"}`. -/
theorem C1_array_flattening :
    (∀ (key : String) (vs : List String), vs.length > 1 →
      flattenFormValue key (FormValue.array vs) =
        vs.enum.map fun p =>
          (key ++ "." ++ zeroPad p.1 (toString (vs.length - 1)).length, p.2)) ∧
    (∀ key x : String, flattenFormValue key (FormValue.array [x]) = [(key, x)]) ∧
    FormData.build_update ⟨⟨.list, []⟩, false, [("k", .array ["a", "b", "c"])]⟩ =
      some [UpdateSettings.insert none
        [("k.0", "a"), ("k.1", "b"), ("k.2", "c")] false] ∧
    FormData.build_update ⟨⟨.list, []⟩, false, [("k", .array ["x"])]⟩ =
      some [UpdateSettings.insert none [("k", "x")] false] := by
  refine ⟨?_, fun key x => rfl, by decide, by decide⟩
  intro key vs h
  match vs, h with
  | v :: w :: rest, _ =>
    simp [flattenFormValue]

/-- C1 witness: the general multi-element arm applied to a concrete array. -/
theorem C1_array_flattening_witness :
    flattenFormValue "k" (FormValue.array ["a", "b", "c"]) =
      [("k.0", "a"), ("k.1", "b"), ("k.2", "c")] := by
  rw [C1_array_flattening.1 "k" ["a", "b", "c"] (by decide)]
  decide

/-- C2: `build_update` flattens a non-empty `Expression` form value under key
`k` into `("k.<idx>.if", if)` / `("k.<idx>.then", then)` per pair in order
followed by `("k.<n>.else", else)` when there are `n > 0` if/then pairs, with
every index zero-padded to the digit-width of the unreduced pair count `n`;
with no if/then pairs it emits the single bare pair `("k", else)`.  The
concrete 10-pair run exhibits the unreduced pad width (2 digits, from
`n = 10`, where `n - 1 = 9` would have given 1). -/
theorem C2_expression_flattening :
    (∀ (key : String) (expr : ExpressionValue), expr.if_thens ≠ [] →
      flattenFormValue key (FormValue.expression expr) =
        (expr.if_thens.enum.map fun p =>
          [(key ++ "." ++ zeroPad p.1 (toString expr.if_thens.length).length
              ++ ".if", p.2.if_),
           (key ++ "." ++ zeroPad p.1 (toString expr.if_thens.length).length
              ++ ".then", p.2.then_)]).flatten
        ++ [(key ++ "."
              ++ zeroPad expr.if_thens.length (toString expr.if_thens.length).length
              ++ ".else", expr.else_)]) ∧
    (∀ key els : String, els ≠ "" →
      flattenFormValue key (FormValue.expression ⟨[], els⟩) = [(key, els)]) ∧
    (flattenFormValue "k"
        (FormValue.expression ⟨List.replicate 10 ⟨"i", "t"⟩, "e"⟩)).map Prod.fst =
      ["k.00.if", "k.00.then", "k.01.if", "k.01.then", "k.02.if", "k.02.then",
       "k.03.if", "k.03.then", "k.04.if", "k.04.then", "k.05.if", "k.05.then",
       "k.06.if", "k.06.then", "k.07.if", "k.07.then", "k.08.if", "k.08.then",
       "k.09.if", "k.09.then", "k.10.else"] := by
  refine ⟨?_, ?_, by decide⟩
  · intro key expr h
    match expr, h with
    | ⟨p :: rest, els⟩, _ =>
      simp [flattenFormValue, FormValue.is_empty]
  · intro key els h
    have hne : els.isEmpty = false :=
      Bool.eq_false_iff.mpr fun he => h ((String.isEmpty_iff els).mp he)
    simp [flattenFormValue, FormValue.is_empty, hne]

/-- C2 witness: the general pairs arm applied to a concrete one-pair
expression. -/
theorem C2_expression_flattening_witness :
    flattenFormValue "k" (FormValue.expression ⟨[⟨"c", "v"⟩], "e"⟩) =
      [("k.0.if", "c"), ("k.0.then", "v"), ("k.1.else", "e")] := by
  rw [C2_expression_flattening.1 "k" ⟨[⟨"c", "v"⟩], "e"⟩ (by decide)]
  decide

/-- C3: for an `Entry{prefix}` schema whose values contain `_id`,
`build_update` short-circuits to exactly one `Insert` with prefix `none`,
`assert_empty = !is_update`, and the single pair
`("<prefix>.<_id>", value of "_value")`, consulting no other form field. -/
theorem C3_entry_short_circuit (fd : FormData) (pfx id : String)
    (htyp : fd.schema.typ = SchemaType.entry pfx)
    (hid : fd.value_as_str "_id" = some id) :
    fd.build_update =
      some [UpdateSettings.insert none
        [(pfx ++ "." ++ id, (fd.value_as_str "_value").getD "")] (!fd.is_update)] :=
  entry_branch_eq fd pfx id htyp hid

/-- C3 witness: a concrete entry form with an extra regular field, which the
short-circuit never translates. -/
theorem C3_entry_short_circuit_witness :
    FormData.build_update
        ⟨⟨.entry "p", []⟩, true,
          [("_id", .value "x"), ("_value", .value "v"), ("other", .value "z")]⟩ =
      some [UpdateSettings.insert none [("p.x", "v")] false] := by
  rw [C3_entry_short_circuit
    ⟨⟨.entry "p", []⟩, true,
      [("_id", .value "x"), ("_value", .value "v"), ("other", .value "z")]⟩
    "p" "x" rfl rfl]
  decide

/-- No element of the destructive prelude of the `List` branch is an
`Insert`. -/
lemma listDestructivePass_not_insert (self : FormData) (fields : List Field) :
    ∀ u ∈ (listDestructivePass self fields).1, u.isInsert = false := by
  induction fields with
  | nil => intro u hu; simp [listDestructivePass] at hu
  | cons f rest ih =>
    intro u hu
    simp only [listDestructivePass] at hu
    by_cases hm : f.is_multivalue = true
    · simp only [hm, if_true] at hu
      rcases List.mem_cons.mp hu with h | h
      · subst h; rfl
      · exact ih u h
    · by_cases he : self.value_is_empty f.id = true
      · simp only [hm, if_false, he, if_true] at hu
        exact ih u hu
      · simp only [hm, if_false, he] at hu
        exact ih u hu

/-- Every sequence produced by `build_update` splits into a destructive part
followed by a constructive part. -/
lemma build_update_split (fd : FormData) (us : List UpdateSettings)
    (h : fd.build_update = some us) :
    ∃ ds tl, us = ds ++ tl ∧ (∀ u ∈ ds, u.isInsert = false) ∧
      ∀ u ∈ tl, u.isInsert = true := by
  unfold FormData.build_update at h
  split at h
  · rcases Option.map_eq_some'.mp h with ⟨id, _, hval⟩
    refine ⟨_, _, hval.symm, ?_, ?_⟩
    · intro u hu
      split at hu
      · rcases List.mem_singleton.mp hu with rfl
        rfl
      · simp at hu
    · intro u hu
      split at hu
      · rcases List.mem_singleton.mp hu with rfl
        rfl
      · simp at hu
  · rcases Option.map_eq_some'.mp h with ⟨id, _, hval⟩
    exact ⟨[], _, hval.symm, by simp, by
      intro u hu
      rcases List.mem_singleton.mp hu with rfl
      rfl⟩
  · refine ⟨_, _, (Option.some.inj h).symm, ?_, ?_⟩
    · intro u hu
      split at hu
      · rcases List.mem_append.mp hu with hm | hm
        · exact listDestructivePass_not_insert _ _ u hm
        · split at hm
          · rcases List.mem_singleton.mp hm with rfl
            rfl
          · simp at hm
      · simp at hu
    · intro u hu
      split at hu
      · rcases List.mem_singleton.mp hu with rfl
        rfl
      · simp at hu

/-- C4: in every sequence returned by `build_update` (any schema type, any
`is_update` flag), every `Delete` and `Clear` element occurs before every
`Insert`: a destructive operation never follows a constructive one. -/
theorem C4_destructive_before_insert (fd : FormData) (us : List UpdateSettings)
    (h : fd.build_update = some us) (i j : Nat)
    (hi : i < us.length) (hj : j < us.length)
    (hins : (us.get ⟨i, hi⟩).isInsert = true)
    (hdes : (us.get ⟨j, hj⟩).isInsert = false) :
    j < i := by
  rcases build_update_split fd us h with ⟨ds, tl, heq, hds, htl⟩
  subst heq
  have hi2 : ds.length ≤ i := by
    by_contra hlt
    push_neg at hlt
    have hget : (ds ++ tl).get ⟨i, hi⟩ = ds.get ⟨i, hlt⟩ := by
      simp [List.getElem_append_left hlt]
    rw [hget, hds _ (List.get_mem ds i hlt)] at hins
    exact Bool.false_ne_true hins
  have hj2 : j < ds.length := by
    by_contra hge
    push_neg at hge
    have hjlt : j - ds.length < tl.length := by
      have := hj
      simp only [List.length_append] at this
      omega
    have hget : (ds ++ tl).get ⟨j, hj⟩ = tl.get ⟨j - ds.length, hjlt⟩ := by
      simp [List.getElem_append_right hge]
    rw [hget, htl _ (List.get_mem tl (j - ds.length) hjlt)] at hdes
    exact absurd hdes (by decide)
  omega

/-- C4 witness: a concrete record update whose output is a `Clear` followed
by an `Insert`. -/
theorem C4_destructive_before_insert_witness : (0 : Nat) < 1 :=
  C4_destructive_before_insert
    ⟨⟨.record "p", []⟩, true, [("_id", .value "x"), ("a", .value "v")]⟩
    [UpdateSettings.clear "p.x." none,
     UpdateSettings.insert (some "p.x") [("a", "v")] false]
    (by decide) 1 0 (by decide) (by decide) (by decide) (by decide)

/-- The destructive prelude of the `List` branch, in closed form: the
`Clear`s are the multivalue fields in schema order, and the delete keys are
the fields that are multivalue or have an empty value, in schema order. -/
lemma listDestructivePass_eq (self : FormData) (fields : List Field) :
    listDestructivePass self fields =
      ((fields.filter fun f => f.is_multivalue).map fun f =>
          UpdateSettings.clear (f.id ++ ".") none,
       (fields.filter fun f => f.is_multivalue || self.value_is_empty f.id).map
          fun f => f.id) := by
  induction fields with
  | nil => rfl
  | cons f rest ih =>
    simp only [listDestructivePass, ih, List.filter_cons]
    by_cases hm : f.is_multivalue = true
    · simp [hm]
    · by_cases he : self.value_is_empty f.id = true
      · simp [hm, he]
      · simp [hm, he]

/-- C5: for a `List` schema with `is_update = true`, `build_update` emits a
`Clear{"<field>.", none}` per multivalue field in schema order, then exactly
one `Delete` whose key set lists, in schema order, every field that is
multivalue or has an empty value — the `Delete` present iff that set is
non-empty — and then the constructive `Insert` (if any); so an empty
multivalue field gets both a `Clear` and membership in the `Delete` key set.
With `is_update = false` no `Clear` or `Delete` is emitted. -/
theorem C5_list_destructive (fd : FormData)
    (htyp : fd.schema.typ = SchemaType.list) :
    (fd.is_update = true →
      fd.build_update = some (
        ((fd.schema.fields.filter fun f => f.is_multivalue).map fun f =>
            UpdateSettings.clear (f.id ++ ".") none)
        ++ (if !((fd.schema.fields.filter fun f =>
                  f.is_multivalue || fd.value_is_empty f.id).map
                  fun f => f.id).isEmpty then
              [UpdateSettings.delete ((fd.schema.fields.filter fun f =>
                  f.is_multivalue || fd.value_is_empty f.id).map fun f => f.id)]
            else [])
        ++ (if !(buildKeyValues fd.values).isEmpty then
              [UpdateSettings.insert none (buildKeyValues fd.values) false]
            else []))) ∧
    (fd.is_update = false →
      fd.build_update = some
        (if !(buildKeyValues fd.values).isEmpty then
          [UpdateSettings.insert none (buildKeyValues fd.values) false]
        else [])) := by
  constructor
  · intro hup
    unfold FormData.build_update
    rw [htyp]
    simp only [hup, if_true, listDestructivePass_eq, List.append_assoc]
  · intro hup
    unfold FormData.build_update
    rw [htyp]
    simp [hup]

/-- C5 witness: a list schema with one (empty) multivalue field and one empty
scalar field. -/
theorem C5_list_destructive_witness :
    FormData.build_update
        ⟨⟨.list, [⟨"m", .array, true⟩, ⟨"s", .text, false⟩]⟩, true,
          [("s", .value "")]⟩ =
      some [UpdateSettings.clear "m." none, UpdateSettings.delete ["m", "s"]] := by
  rw [(C5_list_destructive
    ⟨⟨.list, [⟨"m", .array, true⟩, ⟨"s", .text, false⟩]⟩, true,
      [("s", .value "")]⟩ rfl).1 rfl]
  decide

/-- Looking the identifier up after an in-place `rlSet` update yields exactly
the stored value. -/
lemma lookup_rlSet (limits : RateLimits) (id : String) (v : List Nat) :
    List.lookup id (rlSet limits id v) = some v := by
  induction limits with
  | nil => simp [rlSet, List.lookup]
  | cons kv rest ih =>
    rcases kv with ⟨k, w⟩
    simp only [rlSet]
    by_cases hk : k = id
    · subst hk
      simp [List.lookup]
    · have hbeq : (k == id) = false := beq_eq_false_iff_ne.mpr hk
      have hbeq2 : (id == k) = false := beq_eq_false_iff_ne.mpr (Ne.symm hk)
      simp only [hbeq, if_false, List.lookup, hbeq2]
      exact ih

/-- C6: each rate-limit check first drops the identifier's recorded events
outside the 60-second window; with 60 or more remaining it rejects without
recording the new attempt (the stored record is exactly the pruned list),
otherwise it records `now` at the end and accepts.  Consequently 60 checks of
one identifier at the same instant all accept, the 61st rejects, and a check
after the window has elapsed accepts again. -/
theorem C6_rate_limit :
    (∀ (limits : RateLimits) (id : String) (now : Nat) (reqs : List Nat),
      List.lookup id limits = some reqs →
      (MAX_REQUESTS_PER_WINDOW ≤
          (reqs.filter fun t => now - t < RATE_LIMIT_WINDOW).length →
        (check_rate_limit limits id now).1 = Except.error "Rate limit exceeded" ∧
        List.lookup id (check_rate_limit limits id now).2 =
          some (reqs.filter fun t => now - t < RATE_LIMIT_WINDOW)) ∧
      ((reqs.filter fun t => now - t < RATE_LIMIT_WINDOW).length <
          MAX_REQUESTS_PER_WINDOW →
        (check_rate_limit limits id now).1 = Except.ok () ∧
        List.lookup id (check_rate_limit limits id now).2 =
          some ((reqs.filter fun t => now - t < RATE_LIMIT_WINDOW) ++ [now]))) ∧
    (runChecks [] (List.replicate 60 ("x", 100) ++ [("x", 100), ("x", 200)])).1 =
      List.replicate 60 (Except.ok ()) ++
        [Except.error "Rate limit exceeded", Except.ok ()] := by
  constructor
  · intro limits id now reqs hl
    constructor
    · intro hge
      unfold check_rate_limit
      rw [hl]
      simp only [ge_iff_le, hge, if_true]
      exact ⟨by trivial, lookup_rlSet limits id _⟩
    · intro hlt
      unfold check_rate_limit
      rw [hl]
      simp only [ge_iff_le, Nat.not_le.mpr hlt, if_false]
      exact ⟨by trivial, lookup_rlSet limits id _⟩
  · rfl

/-- C6 witness: a one-event record well inside the window accepts and records
the new instant. -/
theorem C6_rate_limit_witness :
    (check_rate_limit [("x", [50])] "x" 100).1 = Except.ok () ∧
    List.lookup "x" (check_rate_limit [("x", [50])] "x" 100).2 =
      some (([50].filter fun t => 100 - t < RATE_LIMIT_WINDOW) ++ [100]) :=
  ((C6_rate_limit.1 [("x", [50])] "x" 100 [50] rfl).2 (by decide))

/-- C10: for an `Entry{prefix}` schema whose values contain `_id` but no
`_value`, `build_update` does not fail: it substitutes the empty string for
the missing `_value` and emits the single pair `("<prefix>.<_id>", "")`. -/
theorem C10_entry_missing_value (fd : FormData) (pfx id : String)
    (htyp : fd.schema.typ = SchemaType.entry pfx)
    (hid : fd.value_as_str "_id" = some id)
    (hval : fd.value_as_str "_value" = none) :
    fd.build_update =
      some [UpdateSettings.insert none [(pfx ++ "." ++ id, "")] (!fd.is_update)] := by
  have h := entry_branch_eq fd pfx id htyp hid
  rwa [hval] at h

/-- C10 witness: a concrete entry form with no `_value` entry. -/
theorem C10_entry_missing_value_witness :
    FormData.build_update ⟨⟨.entry "p", []⟩, false, [("_id", .value "x")]⟩ =
      some [UpdateSettings.insert none [("p.x", "")] true] := by
  rw [C10_entry_missing_value ⟨⟨.entry "p", []⟩, false, [("_id", .value "x")]⟩
    "p" "x" rfl rfl rfl]
  decide

/-- After removing a token, looking it up finds nothing. -/
lemma lookup_removeToken (tokens : CsrfTokens) (token : String) :
    List.lookup token (removeToken tokens token) = none := by
  induction tokens with
  | nil => rfl
  | cons kv rest ih =>
    rcases kv with ⟨k, v⟩
    simp only [removeToken, List.filter]
    by_cases hk : k = token
    · subst hk
      simp only [bne_self_eq_false]
      exact ih
    · have h1 : (k != token) = true := bne_iff_ne.mpr hk
      have h2 : (token == k) = false := beq_eq_false_iff_ne.mpr (Ne.symm hk)
      simp only [h1, List.lookup, h2]
      exact ih

/-- C7: `validate` accepts a token iff it is stored with age strictly below
3600 seconds; on success it removes the token (so an immediate second
validation of the same token fails); an expired token is rejected with the
store unchanged; an absent token is rejected with the store unchanged. -/
theorem C7_csrf_validate :
    (∀ (tokens : CsrfTokens) (token : String) (now : Nat),
      (validate_csrf_token tokens token now).1 = true ↔
        ∃ created_at, List.lookup token tokens = some created_at ∧
          now - created_at < CSRF_TOKEN_EXPIRY) ∧
    (∀ (tokens : CsrfTokens) (token : String) (now created_at : Nat),
      List.lookup token tokens = some created_at →
      now - created_at < CSRF_TOKEN_EXPIRY →
      validate_csrf_token tokens token now = (true, removeToken tokens token) ∧
      ∀ now2, validate_csrf_token (removeToken tokens token) token now2 =
        (false, removeToken tokens token)) ∧
    (∀ (tokens : CsrfTokens) (token : String) (now created_at : Nat),
      List.lookup token tokens = some created_at →
      ¬ now - created_at < CSRF_TOKEN_EXPIRY →
      validate_csrf_token tokens token now = (false, tokens)) ∧
    (∀ (tokens : CsrfTokens) (token : String) (now : Nat),
      List.lookup token tokens = none →
      validate_csrf_token tokens token now = (false, tokens)) := by
  refine ⟨?_, ?_, ?_, ?_⟩
  · intro tokens token now
    constructor
    · intro h
      unfold validate_csrf_token at h
      cases hl : List.lookup token tokens with
      | none => rw [hl] at h; simp at h
      | some c =>
        rw [hl] at h
        by_cases hc : now - c < CSRF_TOKEN_EXPIRY
        · exact ⟨c, rfl, hc⟩
        · simp [hc] at h
    · rintro ⟨c, hl, hc⟩
      unfold validate_csrf_token
      rw [hl]
      simp [hc]
  · intro tokens token now c hl hc
    constructor
    · unfold validate_csrf_token
      rw [hl]
      simp [hc]
    · intro now2
      unfold validate_csrf_token
      rw [lookup_removeToken]
  · intro tokens token now c hl hc
    unfold validate_csrf_token
    rw [hl]
    simp [hc]
  · intro tokens token now hl
    unfold validate_csrf_token
    rw [hl]

/-- C7 witness: a fresh token validates once and only once. -/
theorem C7_csrf_validate_witness :
    validate_csrf_token [("tok", 10)] "tok" 20 =
      (true, removeToken [("tok", 10)] "tok") ∧
    ∀ now2, validate_csrf_token (removeToken [("tok", 10)] "tok") "tok" now2 =
      (false, removeToken [("tok", 10)] "tok") :=
  C7_csrf_validate.2.1 [("tok", 10)] "tok" 20 10 rfl (by decide)

/-- The audit buffer after appending a whole sequence of entries to an empty
buffer is the suffix of the last `MAX_AUDIT_LOGS` entries, in order. -/
lemma auditAll_eq_drop (es : List AuditLog) :
    auditAll es = es.drop (es.length - MAX_AUDIT_LOGS) := by
  have hM : MAX_AUDIT_LOGS = 1000 := rfl
  induction es using List.reverseRecOn with
  | nil => rfl
  | append_singleton l a ih =>
    have hstep : auditAll (l ++ [a]) = auditStep (auditAll l) a := by
      simp [auditAll]
    rw [hstep, ih]
    unfold auditStep
    rcases Nat.lt_or_ge l.length MAX_AUDIT_LOGS with hlt | hge
    · have h0 : l.length - MAX_AUDIT_LOGS = 0 := by omega
      have h1 : (l ++ [a]).length - MAX_AUDIT_LOGS = 0 := by
        simp only [List.length_append, List.length_cons, List.length_nil]
        omega
      rw [h0, h1, List.drop_zero, List.drop_zero]
      have hc : ¬ l.length ≥ MAX_AUDIT_LOGS := by omega
      rw [if_neg hc]
    · have hc : (l.drop (l.length - MAX_AUDIT_LOGS)).length ≥ MAX_AUDIT_LOGS := by
        rw [List.length_drop]
        omega
      rw [if_pos hc, List.tail_drop]
      have h2 : (l ++ [a]).length - MAX_AUDIT_LOGS =
          (l.length - MAX_AUDIT_LOGS) + 1 := by
        simp only [List.length_append, List.length_cons, List.length_nil]
        omega
      rw [h2, List.drop_append_of_le_length (by omega)]

/-- C8: the audit log is a bounded FIFO of capacity 1000: 1001 appends into
an empty buffer leave exactly the last 1000 entries in insertion order, so
the very first entry is gone (whenever the entries are pairwise distinct). -/
theorem C8_audit_fifo (entries : List AuditLog) (h : entries.length = 1001) :
    auditAll entries = entries.tail ∧
    (auditAll entries).length = MAX_AUDIT_LOGS ∧
    ∀ e : AuditLog, entries.head? = some e → entries.Nodup →
      e ∉ auditAll entries := by
  have hd : auditAll entries = entries.drop 1 := by
    have h1 : (1001 : Nat) - MAX_AUDIT_LOGS = 1 := rfl
    rw [auditAll_eq_drop, h, h1]
  refine ⟨by rw [hd, List.drop_one], ?_, ?_⟩
  · rw [hd, List.length_drop, h]
    exact rfl
  · intro e he hnd
    rw [hd, List.drop_one]
    rcases entries with _ | ⟨e0, t⟩
    · simp at he
    · cases Option.some.inj he
      simp only [List.tail_cons]
      exact (List.nodup_cons.mp hnd).1

/-- C8 witness: 1001 distinct entries leave the last 1000, i.e. the tail. -/
theorem C8_audit_fifo_witness :
    auditAll ((List.range 1001).map fun i =>
        (⟨i, .login, "u", "d", none, true⟩ : AuditLog)) =
      ((List.range 1001).map fun i =>
        (⟨i, .login, "u", "d", none, true⟩ : AuditLog)).tail :=
  (C8_audit_fifo _ (by simp)).1

/-- C9 counterexample: a Boolean field with a missing stored input renders as
the false-branch label `"No"`, not as the empty string the claim requires for
every missing input. -/
theorem C9_boolean_missing_counterexample :
    Settings.format (fun _ => none) (fun _ => none) (fun _ => "") []
        ⟨"enabled", FieldType.boolean, false⟩ = "No" ∧
    List.lookup "enabled" ([] : Settings) = none ∧
    ("No" : String) ≠ "" :=
  ⟨rfl, rfl, by decide⟩

/-- C9 (amended): `format` is total by construction, and missing or
unparsable inputs degrade to fixed renderings instead of errors: Duration,
Rate and Size fields render the empty string when the stored input is missing
or fails to parse; Boolean fields render the false-branch label `"No"` when
the input is missing or is anything other than the literal `"true"`; Array
fields render the empty string when no grouped value exists; Text,
Expression, dynamic-source Select and static multi-select fields render the
empty string when the input is missing; a static single Select falls back to
the raw stored value when it matches no option, so a missing input renders
the empty string unless the option table itself keys the empty string, in
which case that entry's label is rendered. -/
theorem C9_format_degradation
    (fmtDuration fmtRate : String → Option String) (fmtSize : Nat → String)
    (settings : Settings) (field : Field) :
    (field.typ = FieldType.duration → List.lookup field.id settings = none →
      Settings.format fmtDuration fmtRate fmtSize settings field = "") ∧
    (∀ s, field.typ = FieldType.duration →
      List.lookup field.id settings = some s → fmtDuration s = none →
      Settings.format fmtDuration fmtRate fmtSize settings field = "") ∧
    (field.typ = FieldType.rate → List.lookup field.id settings = none →
      Settings.format fmtDuration fmtRate fmtSize settings field = "") ∧
    (∀ s, field.typ = FieldType.rate →
      List.lookup field.id settings = some s → fmtRate s = none →
      Settings.format fmtDuration fmtRate fmtSize settings field = "") ∧
    (field.typ = FieldType.size → List.lookup field.id settings = none →
      Settings.format fmtDuration fmtRate fmtSize settings field = "") ∧
    (∀ s, field.typ = FieldType.size →
      List.lookup field.id settings = some s → parseU64 s = none →
      Settings.format fmtDuration fmtRate fmtSize settings field = "") ∧
    (field.typ = FieldType.boolean → List.lookup field.id settings = none →
      Settings.format fmtDuration fmtRate fmtSize settings field = "No") ∧
    (∀ s, field.typ = FieldType.boolean →
      List.lookup field.id settings = some s → s ≠ "true" →
      Settings.format fmtDuration fmtRate fmtSize settings field = "No") ∧
    (field.typ = FieldType.array → settings.array_values field.id = [] →
      Settings.format fmtDuration fmtRate fmtSize settings field = "") ∧
    (field.typ = FieldType.text → List.lookup field.id settings = none →
      Settings.format fmtDuration fmtRate fmtSize settings field = "") ∧
    (field.typ = FieldType.expression → List.lookup field.id settings = none →
      Settings.format fmtDuration fmtRate fmtSize settings field = "") ∧
    (∀ styp, field.typ = FieldType.select FieldSource.dynamic styp →
      List.lookup field.id settings = none →
      Settings.format fmtDuration fmtRate fmtSize settings field = "") ∧
    (∀ items,
      field.typ = FieldType.select (FieldSource.static_ items) SelectType.many →
      List.lookup field.id settings = none →
      Settings.format fmtDuration fmtRate fmtSize settings field = "") ∧
    (∀ items,
      field.typ = FieldType.select (FieldSource.static_ items) SelectType.single →
      List.lookup field.id settings = none →
      Settings.format fmtDuration fmtRate fmtSize settings field =
        (((items.find? fun kv => kv.1 == "").map fun kv => kv.2).getD "")) ∧
    (∀ items s,
      field.typ = FieldType.select (FieldSource.static_ items) SelectType.single →
      List.lookup field.id settings = some s →
      (items.find? fun kv => kv.1 == s) = none →
      Settings.format fmtDuration fmtRate fmtSize settings field = s) := by
  refine ⟨?_, ?_, ?_, ?_, ?_, ?_, ?_, ?_, ?_, ?_, ?_, ?_, ?_, ?_, ?_⟩
  · intro ht hl
    simp [Settings.format, ht, hl]
  · intro s ht hl hp
    simp [Settings.format, ht, hl, hp]
  · intro ht hl
    simp [Settings.format, ht, hl]
  · intro s ht hl hp
    simp [Settings.format, ht, hl, hp]
  · intro ht hl
    simp [Settings.format, ht, hl]
  · intro s ht hl hp
    simp [Settings.format, ht, hl, hp]
  · intro ht hl
    simp [Settings.format, ht, hl]
  · intro s ht hl hs
    simp [Settings.format, ht, hl, beq_eq_false_iff_ne.mpr hs]
  · intro ht ha
    simp [Settings.format, ht, ha]
  · intro ht hl
    simp [Settings.format, ht, hl]
  · intro ht hl
    simp [Settings.format, ht, hl]
  · intro styp ht hl
    cases styp <;> simp [Settings.format, ht, hl]
  · intro items ht hl
    simp [Settings.format, ht, hl]
  · intro items ht hl
    simp [Settings.format, ht, hl]
  · intro items s ht hl hfind
    simp [Settings.format, ht, hl, hfind]

/-- C9 witness: a Duration field with no stored value renders the empty
string. -/
theorem C9_format_degradation_witness :
    Settings.format (fun _ => none) (fun _ => none) (fun _ => "") []
      ⟨"limit", FieldType.duration, false⟩ = "" :=
  (C9_format_degradation (fun _ => none) (fun _ => none) (fun _ => "") []
    ⟨"limit", FieldType.duration, false⟩).1 rfl rfl

end StalwartAdmin
